import Mathlib

/-!
Verification development for the Predixia predictive-maintenance dashboard
and its specified sensor ingestion / feature extraction / alert pipeline.

The dashboard data model and page logic are embedded from
`src/types/machine.ts`, the zustand store, and the dashboard page
(`DashboardPage`).  Machine-number values are modelled as exact rationals,
performance values (which involve `Math.sin`) as reals, and timestamps in
milliseconds as integers.  `Math.random()` and `Date.now()` are modelled as
explicit parameters (`rand`, `now`).

The pipeline components (ingestion buffer, feature extractor, alert rule
engine) are modelled from the specification, since their implementation is
not part of the repository sources; each such definition carries a doc
comment starting with `Modelled from the spec:`.
-/

/-- Machine status union type from `machine.ts`. -/
inductive MachineStatus
  | online | offline | maintenance | error
  deriving DecidableEq, Repr

/-- `MachineParameter` interface from `machine.ts`. -/
structure MachineParameter where
  id : String
  name : String
  value : ℚ
  unit : String
  minValue : ℚ
  maxValue : ℚ
  critical : ℚ
  warning : ℚ
  timestamp : String
  deriving DecidableEq, Repr

/-- `Machine` interface from `machine.ts`. -/
structure Machine where
  id : String
  name : String
  type : String
  status : MachineStatus
  health : ℚ
  utilization : ℚ
  lastMaintenance : String
  nextMaintenance : String
  location : String
  parameters : List MachineParameter
  deriving DecidableEq, Repr

/-- Alert severity union type from `machine.ts`. -/
inductive Severity
  | high | medium | low
  deriving DecidableEq, Repr

/-- Dashboard `Alert` interface from `machine.ts` (a flat record with an
`acknowledged` flag; distinct from the pipeline's `AlertInstance`). -/
structure DashboardAlert where
  id : String
  machineId : String
  machineName : String
  title : String
  description : String
  severity : Severity
  timestamp : String
  acknowledged : Bool
  deriving DecidableEq, Repr

/-- `PerformanceMetric` interface from `machine.ts`: a timestamp in
milliseconds and a real value. -/
structure PerformanceMetric where
  timestamp : ℤ
  value : ℝ

/-- The `hours24` constant of `generatePerformanceData`:
`24 * 60 * 60 * 1000` milliseconds. -/
def hours24 : ℤ := 24 * 60 * 60 * 1000

/-- The data point pushed at loop index `i` by `generatePerformanceData`:
timestamp `now - hours24 + i * 5 * 60 * 1000` and value
`75 + Math.random() * 20 + Math.sin(i / 12) * 5`, with `Math.random()`
modelled by `rand i`. -/
noncomputable def perfPoint (now : ℤ) (rand : ℕ → ℝ) (i : ℕ) : PerformanceMetric :=
  { timestamp := now - hours24 + (i : ℤ) * (5 * 60 * 1000)
    value := 75 + rand i * 20 + Real.sin ((i : ℝ) / 12) * 5 }

/-- `generatePerformanceData` from `machine.ts`: a loop pushing 288 data
points (one every 5 minutes over the last 24 hours). -/
noncomputable def generatePerformanceData (now : ℤ) (rand : ℕ → ℝ) : List PerformanceMetric :=
  (List.range 288).map (perfPoint now rand)

/-- The `MachineStore` zustand state from `machineStore.ts`. -/
structure MachineStore where
  machines : List Machine
  alerts : List DashboardAlert
  performanceHistory : List PerformanceMetric
  systemHealth : ℚ
  predictionAccuracy : ℚ
  selectedMachineId : Option String

/-- The `dummyMachines` constant from `machineStore.ts`; `isoAt` models
`new Date(ms).toISOString()` rendering of the current time. -/
def dummyMachines (isoAt : ℤ → String) (now : ℤ) : List Machine :=
  [ { id := "M001", name := "CNC Mill Alpha", type := "CNC Machine",
      status := .online, health := 98.5, utilization := 85.2,
      lastMaintenance := "2024-03-15", nextMaintenance := "2024-04-15",
      location := "Production Line A",
      parameters :=
        [ { id := "P001", name := "Spindle Speed", value := 8500, unit := "RPM",
            minValue := 0, maxValue := 12000, critical := 11000, warning := 10000,
            timestamp := isoAt now },
          { id := "P002", name := "Temperature", value := 65, unit := "°C",
            minValue := 0, maxValue := 100, critical := 85, warning := 75,
            timestamp := isoAt now } ] },
    { id := "M002", name := "Robotic Arm Beta", type := "Robot",
      status := .maintenance, health := 75.8, utilization := 0,
      lastMaintenance := "2024-03-18", nextMaintenance := "2024-03-20",
      location := "Assembly Line B",
      parameters :=
        [ { id := "P003", name := "Joint Speed", value := 45, unit := "deg/s",
            minValue := 0, maxValue := 180, critical := 160, warning := 140,
            timestamp := isoAt now } ] },
    { id := "M003", name := "Laser Cutter Gamma", type := "Laser System",
      status := .error, health := 45.2, utilization := 0,
      lastMaintenance := "2024-02-28", nextMaintenance := "2024-03-21",
      location := "Production Line C",
      parameters :=
        [ { id := "P004", name := "Laser Power", value := 950, unit := "W",
            minValue := 0, maxValue := 1000, critical := 980, warning := 900,
            timestamp := isoAt now } ] } ]

/-- The `dummyAlerts` constant from `machineStore.ts` (timestamps 5, 15 and
30 minutes before `now`). -/
def dummyAlerts (isoAt : ℤ → String) (now : ℤ) : List DashboardAlert :=
  [ { id := "A001", machineId := "M003", machineName := "Laser Cutter Gamma",
      title := "Critical Temperature Warning",
      description := "Machine temperature exceeds safe operating range",
      severity := .high, timestamp := isoAt (now - 1000 * 60 * 5),
      acknowledged := false },
    { id := "A002", machineId := "M002", machineName := "Robotic Arm Beta",
      title := "Scheduled Maintenance",
      description := "Regular maintenance check required",
      severity := .medium, timestamp := isoAt (now - 1000 * 60 * 15),
      acknowledged := true },
    { id := "A003", machineId := "M001", machineName := "CNC Mill Alpha",
      title := "Performance Optimization",
      description := "Slight decrease in cutting efficiency detected",
      severity := .low, timestamp := isoAt (now - 1000 * 60 * 30),
      acknowledged := false } ]

/-- The initial state passed to `create` in `machineStore.ts`. -/
noncomputable def initialStore (isoAt : ℤ → String) (now : ℤ) (rand : ℕ → ℝ) : MachineStore :=
  { machines := dummyMachines isoAt now
    alerts := dummyAlerts isoAt now
    performanceHistory := generatePerformanceData now rand
    systemHealth := 89.5
    predictionAccuracy := 94.8
    selectedMachineId := none }

/-- The `setSelectedMachineId` action of the store: the only state update
the store exposes; it touches no other field. -/
def setSelectedMachineId (s : MachineStore) (id : Option String) : MachineStore :=
  { s with selectedMachineId := id }

/-- Store states reachable from the initial store through the store's API
(`setSelectedMachineId` is its only action). -/
inductive ReachableStore (isoAt : ℤ → String) (now : ℤ) (rand : ℕ → ℝ) : MachineStore → Prop
  | init : ReachableStore isoAt now rand (initialStore isoAt now rand)
  | set (s : MachineStore) (id : Option String) :
      ReachableStore isoAt now rand s →
      ReachableStore isoAt now rand (setSelectedMachineId s id)

/-- Status values used by `StatusCard` (`StatusCard.tsx`). -/
inductive CardStatus
  | normal | warning | error | offline
  deriving DecidableEq, Repr

/-- `getSystemStatus` from `DashboardPage`: `error` below 50, `warning`
below 80, else `normal`. -/
def getSystemStatus (systemHealth : ℚ) : CardStatus :=
  if systemHealth < 50 then .error
  else if systemHealth < 80 then .warning
  else .normal

/-- `averageUtilization` from `DashboardPage`:
`machines.reduce((sum, machine) => sum + machine.utilization, 0) / machines.length`. -/
def averageUtilization (machines : List Machine) : ℚ :=
  machines.foldl (fun sum machine => sum + machine.utilization) 0 / (machines.length : ℚ)

/-! ### Pipeline data model (modelled from the spec) -/

/-- Modelled from the spec: reading quality values
(`good | bad | uncertain | substitute`, spec section 3). -/
inductive Quality
  | good | bad | uncertain | substitute
  deriving DecidableEq, Repr

/-- Modelled from the spec: a `Reading` (spec section 3) — the pipeline
implementation is not part of the repository sources.  Values are modelled
as exact reals, timestamps as integer milliseconds. -/
structure Reading where
  sensor_id : String
  equipment_id : String
  timestamp : ℤ
  value : ℝ
  quality : Quality
  unit : String

/-- Modelled from the spec: the two overflow policies of the per-sensor
ingestion buffer (spec section 4.2), selected by configuration. -/
inductive OverflowPolicy
  | RejectNewest | DropOldest
  deriving DecidableEq, Repr

/-- Modelled from the spec: per-deployment buffer configuration — a
capacity and a configured overflow policy (default `RejectNewest`). -/
structure BufferConfig where
  capacity : ℕ
  policy : OverflowPolicy := .RejectNewest

/-- Modelled from the spec: the state of the per-sensor ingestion buffers —
per-sensor FIFO queues (oldest first), the log of readings already
delivered by `dequeue_batch` per sensor, and a per-sensor rejection
counter. -/
structure BufState where
  queues : String → List Reading
  delivered : String → List Reading
  rejections : String → ℕ

/-- Modelled from the spec: the empty buffer state. -/
def BufState.init : BufState :=
  { queues := fun _ => [], delivered := fun _ => [], rejections := fun _ => 0 }

/-- Modelled from the spec: `enqueue(reading)` (spec section 4.2) — append
to the sensor's FIFO when below capacity; when full, apply the configured
overflow policy: `RejectNewest` keeps the buffer and counts a rejection,
`DropOldest` drops the oldest reading and appends the new one. -/
def enqueue (cfg : BufferConfig) (st : BufState) (r : Reading) : BufState :=
  let q := st.queues r.sensor_id
  if q.length < cfg.capacity then
    { st with queues := fun s => if s = r.sensor_id then q ++ [r] else st.queues s }
  else
    match cfg.policy with
    | .RejectNewest =>
        { st with rejections := fun s =>
            if s = r.sensor_id then st.rejections s + 1 else st.rejections s }
    | .DropOldest =>
        { st with queues := fun s =>
            if s = r.sensor_id then q.tail ++ [r] else st.queues s }

/-- Modelled from the spec: `dequeue_batch(max_n)` (spec section 4.2) —
drain up to `max_n` oldest-first readings for a sensor; the drained
readings are recorded as delivered. -/
def dequeue_batch (st : BufState) (sensor : String) (max_n : ℕ) : BufState :=
  { st with
    queues := fun s => if s = sensor then (st.queues sensor).drop max_n else st.queues s
    delivered := fun s =>
      if s = sensor then st.delivered sensor ++ (st.queues sensor).take max_n
      else st.delivered s }

/-- Modelled from the spec: an operation against the ingestion buffer —
either a submitted reading or a batch dequeue for one sensor. -/
inductive BufOp
  | enq (r : Reading)
  | deq (sensor : String) (max_n : ℕ)

/-- Modelled from the spec: one step of the ingestion buffer. -/
def bufStep (cfg : BufferConfig) (st : BufState) (op : BufOp) : BufState :=
  match op with
  | .enq r => enqueue cfg st r
  | .deq sensor max_n => dequeue_batch st sensor max_n

/-- Modelled from the spec: run the ingestion buffer over a sequence of
operations from the empty state. -/
def bufRun (cfg : BufferConfig) (ops : List BufOp) : BufState :=
  ops.foldl (bufStep cfg) BufState.init

/-- Modelled from the spec: the sequence of readings submitted for one
`sensor_id`, in submission order. -/
def submittedFor (sensor : String) (ops : List BufOp) : List Reading :=
  ops.filterMap fun op =>
    match op with
    | .enq r => if r.sensor_id = sensor then some r else none
    | .deq _ _ => none

/-! ### Feature extractor (modelled from the spec) -/

/-- Modelled from the spec: extraction failure reasons — a window below the
minimum reading-count threshold yields `InsufficientData` (spec section
4.4). -/
inductive ExtractionError
  | InsufficientData
  deriving DecidableEq, Repr

/-- Modelled from the spec: a `FeatureVector` (spec section 3) with the
statistical features the claims concern; the configurable percentile and
spectral features are outside the modelled scope. -/
structure FeatureVector where
  sensor_id : String
  equipment_id : String
  window_end_time : ℤ
  mean : ℝ
  variance : ℝ
  std : ℝ
  minVal : ℝ
  maxVal : ℝ
  skew : ℝ
  kurtosis : ℝ
  source_reading_count : ℕ

/-- Modelled from the spec: the list of values of a window's readings. -/
def windowValues (w : List Reading) : List ℝ := w.map Reading.value

/-- Modelled from the spec: the population mean of a list of values. -/
noncomputable def listMean (vs : List ℝ) : ℝ := vs.sum / (vs.length : ℝ)

/-- Modelled from the spec: the `k`-th central moment of a list of values
(the Welford-style single-pass computation of the spec produces exactly
these values in exact arithmetic). -/
noncomputable def listMoment (k : ℕ) (vs : List ℝ) : ℝ :=
  (vs.map fun v => (v - listMean vs) ^ k).sum / (vs.length : ℝ)

/-- Modelled from the spec: the population variance of a list of values. -/
noncomputable def listVariance (vs : List ℝ) : ℝ := listMoment 2 vs

/-- Modelled from the spec: the population standard deviation. -/
noncomputable def listStd (vs : List ℝ) : ℝ := Real.sqrt (listVariance vs)

/-- Modelled from the spec: skewness, with the defined sentinel `0` when
the standard deviation is zero (never an undefined value). -/
noncomputable def listSkew (vs : List ℝ) : ℝ :=
  if listStd vs = 0 then 0 else listMoment 3 vs / listStd vs ^ 3

/-- Modelled from the spec: kurtosis, with the defined sentinel `0` when
the standard deviation is zero. -/
noncomputable def listKurtosis (vs : List ℝ) : ℝ :=
  if listStd vs = 0 then 0 else listMoment 4 vs / listStd vs ^ 4

/-- Modelled from the spec: `extract_features : Window → Result` (spec
section 4.4).  A window below the minimum reading-count threshold
(`minCount`, a configuration value) yields `InsufficientData` — the empty
window is below every positive threshold — and is never zero-filled;
otherwise the statistical features are computed. -/
noncomputable def extract_features (minCount : ℕ) (w : List Reading) :
    Except ExtractionError FeatureVector :=
  match w with
  | [] => .error .InsufficientData
  | r :: rs =>
      if (r :: rs).length < minCount then .error .InsufficientData
      else
        .ok
          { sensor_id := r.sensor_id
            equipment_id := r.equipment_id
            window_end_time := ((r :: rs).map Reading.timestamp).foldl max r.timestamp
            mean := listMean (windowValues (r :: rs))
            variance := listVariance (windowValues (r :: rs))
            std := listStd (windowValues (r :: rs))
            minVal := (windowValues (r :: rs)).foldl min r.value
            maxVal := (windowValues (r :: rs)).foldl max r.value
            skew := listSkew (windowValues (r :: rs))
            kurtosis := listKurtosis (windowValues (r :: rs))
            source_reading_count := (r :: rs).length }

/-! ### Alert lifecycle and rule engine (modelled from the spec) -/

/-- Modelled from the spec: the states of an `AlertInstance` (spec section
3): `Active → Acknowledged → Resolved` with a parallel `Suppressed` state
reachable from `Active`. -/
inductive AlertLifecycleState
  | Active | Acknowledged | Resolved | Suppressed
  deriving DecidableEq, Repr

/-- Modelled from the spec: an `AlertInstance` owned by the alert rule
engine; timestamps are integer milliseconds, actors are identities. -/
structure AlertInstance where
  state : AlertLifecycleState
  triggered_at : ℤ
  acknowledged_at : Option ℤ
  resolved_at : Option ℤ
  acknowledged_by : Option String
  resolved_by : Option String
  last_observed_at : ℤ
  metadata : List String
  deriving DecidableEq, Repr

/-- Modelled from the spec: `trigger` creates an `Active` instance at time
`t` (condition sustained for the minimum duration). -/
def alertTrigger (t : ℤ) : AlertInstance :=
  { state := .Active, triggered_at := t, acknowledged_at := none,
    resolved_at := none, acknowledged_by := none, resolved_by := none,
    last_observed_at := t, metadata := [] }

/-- Modelled from the spec: the lifecycle events of an `AlertInstance`:
`acknowledge` and `resolve` carry an actor identity and a time;
`suppress`/`unsuppress` toggle the parallel state; `annotate` adds a
metadata annotation. -/
inductive AlertEvent
  | acknowledge (actor : String) (t : ℤ)
  | resolve (actor : String) (t : ℤ)
  | suppress
  | unsuppress
  | annotate (note : String)
  deriving DecidableEq, Repr

/-- Modelled from the spec: the time an event carries, when it has one. -/
def eventTime (e : AlertEvent) : Option ℤ :=
  match e with
  | .acknowledge _ t => some t
  | .resolve _ t => some t
  | _ => none

/-- Modelled from the spec: the transition function of the `AlertInstance`
state machine; `none` means the transition is rejected.  `acknowledge`
moves `Active` to `Acknowledged`, `resolve` moves `Active` or
`Acknowledged` to `Resolved` (both record the actor), `suppress` and
`unsuppress` toggle between `Active` and `Suppressed`, and a `Resolved`
instance admits only metadata annotations. -/
def applyEvent (a : AlertInstance) (e : AlertEvent) : Option AlertInstance :=
  match e, a.state with
  | .acknowledge actor t, .Active =>
      some { a with state := .Acknowledged, acknowledged_at := some t,
                    acknowledged_by := some actor }
  | .resolve actor t, .Active =>
      some { a with state := .Resolved, resolved_at := some t,
                    resolved_by := some actor }
  | .resolve actor t, .Acknowledged =>
      some { a with state := .Resolved, resolved_at := some t,
                    resolved_by := some actor }
  | .suppress, .Active => some { a with state := .Suppressed }
  | .unsuppress, .Suppressed => some { a with state := .Active }
  | .annotate note, _ => some { a with metadata := note :: a.metadata }
  | _, _ => none

/-- Modelled from the spec: run an instance through a sequence of events;
rejected transitions leave the instance unchanged. -/
def runAlert (a : AlertInstance) (es : List AlertEvent) : AlertInstance :=
  es.foldl (fun b e => (applyEvent b e).getD b) a

/-- Modelled from the spec: an `AlertRule` (spec section 3) — the
condition itself is evaluated upstream, so the engine model consumes a
per-sample satisfaction flag; `minDuration` is the minimum sustained
duration measured in samples. -/
structure AlertRule where
  id : String
  enabled : Bool
  minDuration : ℕ
  severity : Severity

/-- Modelled from the spec: per-(rule, scope) engine state — the current
streak of consecutive satisfied samples, the instance owned by the engine
when one exists, and the count of instances created so far. -/
structure RuleEngineState where
  streak : ℕ
  active : Option AlertInstance
  created : ℕ
  deriving Repr

/-- Modelled from the spec: the initial engine state for a rule scope. -/
def RuleEngineState.init : RuleEngineState := { streak := 0, active := none, created := 0 }

/-- Modelled from the spec: one evaluation step of the alert rule engine
(spec section 4.6) for a sample at time `t` with condition satisfaction
`sat`.  Disabled rules are not evaluated.  A satisfied sample extends the
streak; when the streak reaches the minimum duration and no instance
exists, exactly one `Active` instance is created; while an instance exists,
repeated satisfaction only extends `last_observed_at`.  An unsatisfied
sample resets the streak. -/
def stepRule (rule : AlertRule) (st : RuleEngineState) (sat : Bool) (t : ℤ) : RuleEngineState :=
  if rule.enabled = false then st
  else if sat then
    let streak := st.streak + 1
    if rule.minDuration ≤ streak then
      match st.active with
      | none => { streak := streak, active := some (alertTrigger t), created := st.created + 1 }
      | some a => { streak := streak,
                    active := some { a with last_observed_at := t },
                    created := st.created }
    else { st with streak := streak }
  else { st with streak := 0 }

/-- Modelled from the spec: run the engine over a sequence of timed
satisfaction samples. -/
def runRule (rule : AlertRule) (samples : List (Bool × ℤ)) : RuleEngineState :=
  samples.foldl (fun st s => stepRule rule st s.1 s.2) RuleEngineState.init

/-- Modelled from the spec: a sequence of `m` consecutive satisfied samples
at times `0, 1, …, m - 1`. -/
def satisfiedSamples (m : ℕ) : List (Bool × ℤ) :=
  (List.range m).map fun i => (true, (i : ℤ))

/-- A concrete reading for sensor `s1` with sequence number `i` and value
`v`, used in concrete scenarios. -/
def mkReading (i : ℕ) (v : ℝ) : Reading :=
  { sensor_id := "s1", equipment_id := "e1", timestamp := (i : ℤ),
    value := v, quality := .good, unit := "u" }

/-- A concrete enabled rule with a two-sample minimum duration, used in
concrete scenarios. -/
def testRule : AlertRule :=
  { id := "R1", enabled := true, minDuration := 2, severity := .high }

/-- A sample machine used by concrete witnesses. -/
def sampleMachine : Machine :=
  { id := "M9", name := "Sample", type := "CNC Machine", status := .online,
    health := 90, utilization := 80, lastMaintenance := "2024-01-01",
    nextMaintenance := "2024-02-01", location := "L", parameters := [] }

/-! ### Theorems -/

/-- Folding `+ utilization` from `a` adds the sum of utilizations. -/
theorem util_foldl_eq_sum (a : ℚ) (ms : List Machine) :
    ms.foldl (fun sum machine => sum + machine.utilization) a
      = a + (ms.map Machine.utilization).sum := by
  induction ms generalizing a with
  | nil => simp
  | cons m ms ih => simp [ih, add_assoc]

/-- C9: the dashboard's overall system status is `error` exactly when
`systemHealth < 50`, `warning` exactly when `50 ≤ systemHealth < 80`, and
`normal` exactly when `systemHealth ≥ 80`. -/
theorem getSystemStatus_spec (h : ℚ) :
    (getSystemStatus h = .error ↔ h < 50) ∧
    (getSystemStatus h = .warning ↔ 50 ≤ h ∧ h < 80) ∧
    (getSystemStatus h = .normal ↔ 80 ≤ h) := by
  unfold getSystemStatus
  split_ifs with h1 h2 <;> refine ⟨?_, ?_, ?_⟩ <;> simp_all
  all_goals linarith

/-- C10: the dashboard's average machine utilization is the arithmetic
mean (sum of utilizations divided by the machine count) whenever the
machines list is non-empty — with a non-zero divisor — while for the empty
list the divisor `machines.length` is zero, so the computation presupposes
at least one machine. -/
theorem averageUtilization_spec (ms : List Machine) :
    (ms ≠ [] →
      averageUtilization ms = (ms.map Machine.utilization).sum / (ms.length : ℚ) ∧
      averageUtilization ms * (ms.length : ℚ) = (ms.map Machine.utilization).sum ∧
      (ms.length : ℚ) ≠ 0) ∧
    (ms = [] → (ms.length : ℚ) = 0) := by
  constructor
  · intro hne
    have hlen : (ms.length : ℚ) ≠ 0 :=
      Nat.cast_ne_zero.mpr fun h0 => hne (List.length_eq_zero.mp h0)
    have havg : averageUtilization ms = (ms.map Machine.utilization).sum / (ms.length : ℚ) := by
      simp [averageUtilization, util_foldl_eq_sum]
    exact ⟨havg, by rw [havg]; field_simp, hlen⟩
  · intro he; subst he; simp

/-- C10 witness: concrete one-machine instantiation. -/
theorem averageUtilization_spec_witness :
    ([sampleMachine] ≠ ([] : List Machine)) ∧
    (averageUtilization [sampleMachine]
        = (([sampleMachine] : List Machine).map Machine.utilization).sum
            / (([sampleMachine] : List Machine).length : ℚ) ∧
      averageUtilization [sampleMachine] * (([sampleMachine] : List Machine).length : ℚ)
        = (([sampleMachine] : List Machine).map Machine.utilization).sum ∧
      ((([sampleMachine] : List Machine).length : ℚ) ≠ 0)) :=
  ⟨by simp, (averageUtilization_spec [sampleMachine]).1 (by simp)⟩

/-- C8: `generatePerformanceData` returns exactly 288 points; the point at
index `i` has timestamp `now - 86400000 + i * 300000` (so the first lies
exactly 24 hours before `now` and consecutive timestamps increase by
exactly 300000 ms); and, provided `Math.random()` yields values in
`[0, 1)`, every value lies in `[70, 100]`. -/
theorem generatePerformanceData_spec (now : ℤ) (rand : ℕ → ℝ)
    (hr : ∀ i, 0 ≤ rand i ∧ rand i < 1) :
    (generatePerformanceData now rand).length = 288 ∧
    (∀ i, i < 288 →
      (generatePerformanceData now rand)[i]? = some (perfPoint now rand i)) ∧
    (∀ i, (perfPoint now rand i).timestamp = now - 86400000 + (i : ℤ) * 300000) ∧
    (perfPoint now rand 0).timestamp = now - 86400000 ∧
    (∀ i, (perfPoint now rand (i + 1)).timestamp
        = (perfPoint now rand i).timestamp + 300000) ∧
    (∀ p ∈ generatePerformanceData now rand, 70 ≤ p.value ∧ p.value ≤ 100) := by
  have hts : ∀ i : ℕ, (perfPoint now rand i).timestamp = now - 86400000 + (i : ℤ) * 300000 := by
    intro i
    simp only [perfPoint, hours24]
    ring
  refine ⟨by simp [generatePerformanceData], ?_, hts, ?_, ?_, ?_⟩
  · intro i hi
    simp [generatePerformanceData, hi]
  · rw [hts]; ring
  · intro i
    rw [hts, hts]
    push_cast
    ring
  · intro p hp
    obtain ⟨i, _, rfl⟩ := List.mem_map.mp hp
    have h0 := (hr i).1
    have h1 := (hr i).2
    have s0 := Real.neg_one_le_sin ((i : ℝ) / 12)
    have s1 := Real.sin_le_one ((i : ℝ) / 12)
    simp only [perfPoint]
    exact ⟨by linarith, by linarith⟩

/-- C8 witness: concrete instantiation with `now = 0` and a zero random
source. -/
theorem generatePerformanceData_spec_witness :
    (∀ i : ℕ, (0:ℝ) ≤ (fun _ : ℕ => (0:ℝ)) i ∧ (fun _ : ℕ => (0:ℝ)) i < 1) ∧
    (generatePerformanceData 0 (fun _ => (0:ℝ))).length = 288 :=
  ⟨fun _ => by norm_num,
   (generatePerformanceData_spec 0 (fun _ => (0:ℝ)) (fun _ => by norm_num)).1⟩

/-- Every store state reachable through the store's API keeps the initial
288-point performance history. -/
theorem reachable_history_length (isoAt : ℤ → String) (now : ℤ) (rand : ℕ → ℝ)
    (s : MachineStore) (h : ReachableStore isoAt now rand s) :
    s.performanceHistory.length = 288 := by
  induction h with
  | init => simp [initialStore, generatePerformanceData]
  | set s id hs ih => simpa [setSelectedMachineId] using ih

/-- C7 counterexample: the performance-history array does not grow without
bound — every store state reachable through the store's API holds exactly
the initial 288 points, so no reachable state exceeds length 288. -/
theorem performanceHistory_growth_counterexample :
    ¬ (∀ n : ℕ, ∃ s : MachineStore,
        ReachableStore (fun _ => "") 0 (fun _ => 0) s ∧
        n < s.performanceHistory.length) := by
  intro h
  obtain ⟨s, hs, hlt⟩ := h 288
  rw [reachable_history_length _ _ _ _ hs] at hlt
  exact lt_irrefl _ hlt

/-- C7 (amended): the dummy history generation builds a fixed array of
exactly 288 points and the store's only update never changes the history,
so the history does not grow at runtime; nevertheless no fixed capacity or
eviction policy bounds the performance-history array in the store's data
model — states of every length are representable and the store API never
evicts an entry. -/
theorem store_no_capacity_bound :
    (∀ (now : ℤ) (rand : ℕ → ℝ), (generatePerformanceData now rand).length = 288) ∧
    (∀ n : ℕ, ∃ s : MachineStore, s.performanceHistory.length = n) ∧
    (∀ (s : MachineStore) (id : Option String),
      (setSelectedMachineId s id).performanceHistory = s.performanceHistory) := by
  refine ⟨fun now rand => by simp [generatePerformanceData], fun n => ?_, fun s id => rfl⟩
  exact ⟨{ machines := [], alerts := [],
           performanceHistory := List.replicate n { timestamp := 0, value := 0 },
           systemHealth := 0, predictionAccuracy := 0, selectedMachineId := none },
         by simp⟩

/-- C3: with capacity 3, enqueueing readings 1,2,3,4 in order leaves the
buffer holding 2,3,4 under `DropOldest`, while under `RejectNewest` (which
is the configuration default) the buffer holds 1,2,3 and exactly one
rejection is reported; the outcome is determined by the configured policy,
not hard-coded. -/
theorem overflow_policy_scenario :
    ((bufRun { capacity := 3, policy := .DropOldest }
        [.enq (mkReading 1 1), .enq (mkReading 2 2),
         .enq (mkReading 3 3), .enq (mkReading 4 4)]).queues "s1"
      = [mkReading 2 2, mkReading 3 3, mkReading 4 4]) ∧
    ((bufRun { capacity := 3, policy := .RejectNewest }
        [.enq (mkReading 1 1), .enq (mkReading 2 2),
         .enq (mkReading 3 3), .enq (mkReading 4 4)]).queues "s1"
      = [mkReading 1 1, mkReading 2 2, mkReading 3 3]) ∧
    ((bufRun { capacity := 3, policy := .RejectNewest }
        [.enq (mkReading 1 1), .enq (mkReading 2 2),
         .enq (mkReading 3 3), .enq (mkReading 4 4)]).rejections "s1" = 1) ∧
    ((bufRun { capacity := 3, policy := .DropOldest }
        [.enq (mkReading 1 1), .enq (mkReading 2 2),
         .enq (mkReading 3 3), .enq (mkReading 4 4)]).rejections "s1" = 0) ∧
    ({ capacity := 3 } : BufferConfig).policy = .RejectNewest :=
  ⟨rfl, rfl, rfl, rfl, rfl⟩

/-- Splitting the submissions of a sensor at the first operation. -/
theorem submittedFor_cons (s : String) (op : BufOp) (ops : List BufOp) :
    submittedFor s (op :: ops) = submittedFor s [op] ++ submittedFor s ops := by
  cases op with
  | enq r =>
      simp only [submittedFor, List.filterMap_cons]
      split <;> simp
  | deq sensor max_n => simp [submittedFor, List.filterMap_cons]

/-- A reading submitted for the sensor itself contributes itself. -/
theorem submittedFor_enq_self (r : Reading) : submittedFor r.sensor_id [.enq r] = [r] := by
  simp [submittedFor]

/-- A reading submitted for a different sensor contributes nothing. -/
theorem submittedFor_enq_other (s : String) (r : Reading) (hs : r.sensor_id ≠ s) :
    submittedFor s [.enq r] = [] := by
  simp [submittedFor, hs]

/-- A dequeue contributes no submission. -/
theorem submittedFor_deq (s sensor : String) (max_n : ℕ) :
    submittedFor s [.deq sensor max_n] = [] := by
  simp [submittedFor]

/-- One buffer step extends the per-sensor delivered-plus-queued trace by
at most the readings submitted in that step, preserving relative order. -/
theorem bufStep_trace_sublist (cfg : BufferConfig) (st : BufState) (op : BufOp) (s : String) :
    ((bufStep cfg st op).delivered s ++ (bufStep cfg st op).queues s).Sublist
      ((st.delivered s ++ st.queues s) ++ submittedFor s [op]) := by
  cases op with
  | deq sensor max_n =>
      rw [submittedFor_deq, List.append_nil]
      simp only [bufStep, dequeue_batch]
      by_cases hs : s = sensor
      · subst hs; simp
      · simp [hs]
  | enq r =>
      by_cases hs : r.sensor_id = s
      · subst hs
        rw [submittedFor_enq_self]
        simp only [bufStep, enqueue]
        split_ifs with hcap
        · simp
        · cases cfg.policy with
          | RejectNewest =>
              simp only []
              exact List.sublist_append_left _ _
          | DropOldest =>
              simp only [if_pos rfl]
              have h1 : (st.delivered r.sensor_id ++ ((st.queues r.sensor_id).tail ++ [r])).Sublist
                  ((st.delivered r.sensor_id ++ (st.queues r.sensor_id).tail) ++ [r]) := by
                rw [List.append_assoc]
              have h2 : ((st.delivered r.sensor_id ++ (st.queues r.sensor_id).tail) ++ [r]).Sublist
                  ((st.delivered r.sensor_id ++ st.queues r.sensor_id) ++ [r]) :=
                ((st.queues r.sensor_id).tail_sublist.append_left _).append_right _
              exact h1.trans h2
      · rw [submittedFor_enq_other s r hs, List.append_nil]
        have hs' : ¬ (s = r.sensor_id) := fun h => hs h.symm
        simp only [bufStep, enqueue]
        split_ifs with hcap
        · simp [hs']
        · cases cfg.policy with
          | RejectNewest => simp
          | DropOldest => simp [hs']

/-- Running the buffer from a state whose per-sensor trace refines `acc`
yields, after any operations, a trace refining `acc` followed by the new
submissions for that sensor. -/
theorem bufRun_trace_sublist (cfg : BufferConfig) (s : String) :
    ∀ (ops : List BufOp) (st : BufState) (acc : List Reading),
      (st.delivered s ++ st.queues s).Sublist acc →
      ((ops.foldl (bufStep cfg) st).delivered s
        ++ (ops.foldl (bufStep cfg) st).queues s).Sublist
        (acc ++ submittedFor s ops) := by
  intro ops
  induction ops with
  | nil => intro st acc h; simpa [submittedFor] using h
  | cons op ops ih =>
      intro st acc h
      have hstep : ((bufStep cfg st op).delivered s ++ (bufStep cfg st op).queues s).Sublist
          (acc ++ submittedFor s [op]) :=
        (bufStep_trace_sublist cfg st op s).trans (h.append_right _)
      have hrec := ih (bufStep cfg st op) (acc ++ submittedFor s [op]) hstep
      rw [submittedFor_cons, ← List.append_assoc]
      exact hrec

/-- C2: for every sequence of buffer operations, the readings delivered
out of the buffer for a given `sensor_id` (via `dequeue_batch`, oldest
first) form an order-preserving subsequence of the readings submitted for
that `sensor_id` — per-sensor FIFO — and so does the delivered trace
extended by the readings still queued. -/
theorem ingestion_fifo_per_sensor (cfg : BufferConfig) (ops : List BufOp) (s : String) :
    ((bufRun cfg ops).delivered s).Sublist (submittedFor s ops) ∧
    ((bufRun cfg ops).delivered s ++ (bufRun cfg ops).queues s).Sublist
      (submittedFor s ops) := by
  have h := bufRun_trace_sublist cfg s ops BufState.init [] (by simp [BufState.init])
  simp only [List.nil_append] at h
  exact ⟨(List.sublist_append_left _ _).trans h, h⟩

/-- The mean of a non-empty constant list is the constant. -/
theorem listMean_replicate (n : ℕ) (V : ℝ) (hn : n ≠ 0) :
    listMean (List.replicate n V) = V := by
  have hℝ : (n : ℝ) ≠ 0 := Nat.cast_ne_zero.mpr hn
  rw [listMean]
  simp only [List.sum_replicate, nsmul_eq_mul, List.length_replicate]
  field_simp

/-- Every positive central moment of a non-empty constant list vanishes. -/
theorem listMoment_replicate (k n : ℕ) (V : ℝ) (hn : n ≠ 0) (hk : k ≠ 0) :
    listMoment k (List.replicate n V) = 0 := by
  rw [listMoment, listMean_replicate n V hn, List.map_replicate]
  simp [sub_self, zero_pow hk]

/-- The standard deviation of a non-empty constant list is zero. -/
theorem listStd_replicate (n : ℕ) (V : ℝ) (hn : n ≠ 0) :
    listStd (List.replicate n V) = 0 := by
  rw [listStd, listVariance, listMoment_replicate 2 n V hn (by omega), Real.sqrt_zero]

/-- Folding `min` from the constant over a constant list is the constant. -/
theorem foldl_min_replicate (n : ℕ) (a : ℝ) : (List.replicate n a).foldl min a = a := by
  induction n with
  | zero => rfl
  | succ n ih => simp [List.replicate_succ, min_self, ih]

/-- Folding `max` from the constant over a constant list is the constant. -/
theorem foldl_max_replicate (n : ℕ) (a : ℝ) : (List.replicate n a).foldl max a = a := by
  induction n with
  | zero => rfl
  | succ n ih => simp [List.replicate_succ, max_self, ih]

/-- C5: feature extraction on a window of one constant reading repeated
enough times to meet the minimum reading-count threshold succeeds and
yields variance = 0, standard deviation = 0, skewness = 0 (the defined
sentinel replacing division by a zero standard deviation), and
min = max = mean = the constant value. -/
theorem extract_features_constant (minCount n : ℕ) (r : Reading)
    (hmin : 1 ≤ minCount) (hn : minCount ≤ n) :
    ∃ fv, extract_features minCount (List.replicate n r) = .ok fv ∧
      fv.variance = 0 ∧ fv.std = 0 ∧ fv.skew = 0 ∧
      fv.mean = r.value ∧ fv.minVal = r.value ∧ fv.maxVal = r.value ∧
      fv.source_reading_count = n := by
  obtain ⟨m, rfl⟩ : ∃ m, n = m + 1 := ⟨n - 1, by omega⟩
  rw [List.replicate_succ]
  have hlen : ¬ ((r :: List.replicate m r).length < minCount) := by
    simp only [List.length_cons, List.length_replicate]
    omega
  have hv : windowValues (r :: List.replicate m r) = List.replicate (m + 1) r.value := by
    simp [windowValues, List.replicate_succ]
  have hm1 : m + 1 ≠ 0 := by omega
  have hstd : listStd (windowValues (r :: List.replicate m r)) = 0 := by
    rw [hv]; exact listStd_replicate (m + 1) r.value hm1
  simp only [extract_features, if_neg hlen]
  refine ⟨_, rfl, ?_, ?_, ?_, ?_, ?_, ?_, ?_⟩
  · show listVariance (windowValues (r :: List.replicate m r)) = 0
    rw [hv, listVariance]
    exact listMoment_replicate 2 (m + 1) r.value hm1 (by omega)
  · exact hstd
  · show listSkew (windowValues (r :: List.replicate m r)) = 0
    rw [listSkew, if_pos hstd]
  · show listMean (windowValues (r :: List.replicate m r)) = r.value
    rw [hv]
    exact listMean_replicate (m + 1) r.value hm1
  · show (windowValues (r :: List.replicate m r)).foldl min r.value = r.value
    rw [hv]
    exact foldl_min_replicate (m + 1) r.value
  · show (windowValues (r :: List.replicate m r)).foldl max r.value = r.value
    rw [hv]
    exact foldl_max_replicate (m + 1) r.value
  · show (r :: List.replicate m r).length = m + 1
    simp

/-- C5 witness: the constant value 5 repeated three times against a
minimum count of two. -/
theorem extract_features_constant_witness :
    1 ≤ 2 ∧ 2 ≤ 3 ∧
    (∃ fv, extract_features 2 (List.replicate 3 (mkReading 0 5)) = .ok fv ∧
      fv.variance = 0 ∧ fv.std = 0 ∧ fv.skew = 0 ∧
      fv.mean = (mkReading 0 5).value ∧ fv.minVal = (mkReading 0 5).value ∧
      fv.maxVal = (mkReading 0 5).value ∧ fv.source_reading_count = 3) :=
  ⟨by norm_num, by norm_num,
   extract_features_constant 2 3 (mkReading 0 5) (by norm_num) (by norm_num)⟩

/-- C6: with a positive minimum reading-count threshold, feature
extraction produces a FeatureVector exactly for windows whose reading
count reaches the threshold, fails with `InsufficientData` exactly for
windows below it, and every produced FeatureVector records the full window
count — so a FeatureVector is never produced from a below-threshold
window and sparse windows are never zero-filled. -/
theorem extract_features_threshold (minCount : ℕ) (w : List Reading) (hmin : 1 ≤ minCount) :
    ((∃ fv, extract_features minCount w = .ok fv) ↔ minCount ≤ w.length) ∧
    (extract_features minCount w = .error .InsufficientData ↔ w.length < minCount) ∧
    (∀ fv, extract_features minCount w = .ok fv →
      fv.source_reading_count = w.length ∧ minCount ≤ w.length) := by
  cases w with
  | nil =>
      refine ⟨?_, ?_, ?_⟩
      · simp only [extract_features, List.length_nil]
        constructor
        · rintro ⟨fv, h⟩; cases h
        · intro h; omega
      · simp only [extract_features, List.length_nil]
        constructor
        · intro _; omega
        · intro _; trivial
      · intro fv h; cases h
  | cons r rs =>
      by_cases hlt : (r :: rs).length < minCount
      · refine ⟨?_, ?_, ?_⟩
        · simp only [extract_features, if_pos hlt]
          constructor
          · rintro ⟨fv, h⟩; cases h
          · intro h; omega
        · simp only [extract_features, if_pos hlt]
          exact ⟨fun _ => hlt, fun _ => trivial⟩
        · intro fv h
          simp only [extract_features, if_pos hlt] at h
          cases h
      · refine ⟨?_, ?_, ?_⟩
        · simp only [extract_features, if_neg hlt]
          exact ⟨fun _ => by omega, fun _ => ⟨_, rfl⟩⟩
        · simp only [extract_features, if_neg hlt]
          constructor
          · intro h; cases h
          · intro h; omega
        · intro fv h
          simp only [extract_features, if_neg hlt, Except.ok.injEq] at h
          refine ⟨?_, by omega⟩
          rw [← h]

/-- C6 witness: threshold one, a one-reading window. -/
theorem extract_features_threshold_witness :
    1 ≤ 1 ∧
    (((∃ fv, extract_features 1 [mkReading 0 5] = .ok fv) ↔
        1 ≤ ([mkReading 0 5] : List Reading).length) ∧
      (extract_features 1 [mkReading 0 5] = .error .InsufficientData ↔
        ([mkReading 0 5] : List Reading).length < 1) ∧
      (∀ fv, extract_features 1 [mkReading 0 5] = .ok fv →
        fv.source_reading_count = ([mkReading 0 5] : List Reading).length ∧
        1 ≤ ([mkReading 0 5] : List Reading).length)) :=
  ⟨le_refl 1, extract_features_threshold 1 [mkReading 0 5] (le_refl 1)⟩

/-- Unfolding one event of an alert run. -/
theorem runAlert_cons (a : AlertInstance) (e : AlertEvent) (es : List AlertEvent) :
    runAlert a (e :: es) = runAlert ((applyEvent a e).getD a) es := rfl

/-- One lifecycle step preserves the timestamp invariants when the event's
time is not before the trigger time. -/
theorem applyEvent_time_inv (t0 : ℤ) (a : AlertInstance) (e : AlertEvent)
    (h1 : a.triggered_at = t0)
    (h2 : ∀ x ∈ a.acknowledged_at, t0 ≤ x)
    (h3 : ∀ x ∈ a.resolved_at, t0 ≤ x)
    (hte : ∀ te ∈ eventTime e, t0 ≤ te) :
    ((applyEvent a e).getD a).triggered_at = t0 ∧
    (∀ x ∈ ((applyEvent a e).getD a).acknowledged_at, t0 ≤ x) ∧
    (∀ x ∈ ((applyEvent a e).getD a).resolved_at, t0 ≤ x) := by
  cases e <;> cases ha : a.state <;>
    simp_all [applyEvent, eventTime, Option.mem_def]

/-- A run from a freshly triggered instance through events timestamped at
or after the trigger keeps the trigger time and the timestamp
invariants. -/
theorem runAlert_time_inv (t0 : ℤ) (es : List AlertEvent) :
    ∀ a : AlertInstance,
      a.triggered_at = t0 →
      (∀ x ∈ a.acknowledged_at, t0 ≤ x) →
      (∀ x ∈ a.resolved_at, t0 ≤ x) →
      (∀ e ∈ es, ∀ te ∈ eventTime e, t0 ≤ te) →
      (runAlert a es).triggered_at = t0 ∧
      (∀ x ∈ (runAlert a es).acknowledged_at, t0 ≤ x) ∧
      (∀ x ∈ (runAlert a es).resolved_at, t0 ≤ x) := by
  induction es with
  | nil => intro a h1 h2 h3 _; exact ⟨h1, h2, h3⟩
  | cons e es ih =>
      intro a h1 h2 h3 hte
      have he : ∀ te ∈ eventTime e, t0 ≤ te := hte e (List.mem_cons_self e es)
      have hstep := applyEvent_time_inv t0 a e h1 h2 h3 he
      rw [runAlert_cons]
      exact ih _ hstep.1 hstep.2.1 hstep.2.2
        (fun e' he' => hte e' (List.mem_cons_of_mem e he'))

/-- C1: the AlertInstance state machine — `trigger` creates an `Active`
instance; `acknowledge` moves exactly `Active` to `Acknowledged` recording
the actor identity; `resolve` moves exactly `Active` or `Acknowledged` to
`Resolved` recording the actor identity; `Suppressed` is reachable only
from `Active` and returns to `Active`; every run from a trigger through
events not timestamped before the trigger satisfies
`acknowledged_at ≥ triggered_at` and `resolved_at ≥ triggered_at`; and a
`Resolved` instance rejects every lifecycle transition, admitting only
metadata annotations which change no other field. -/
theorem alert_lifecycle (t0 : ℤ) (es : List AlertEvent)
    (h : ∀ e ∈ es, ∀ te ∈ eventTime e, t0 ≤ te) :
    ((alertTrigger t0).state = .Active ∧ (alertTrigger t0).triggered_at = t0) ∧
    ((runAlert (alertTrigger t0) es).triggered_at = t0 ∧
      (∀ x ∈ (runAlert (alertTrigger t0) es).acknowledged_at, t0 ≤ x) ∧
      (∀ x ∈ (runAlert (alertTrigger t0) es).resolved_at, t0 ≤ x)) ∧
    (∀ (b : AlertInstance) (actor : String) (t : ℤ) (b' : AlertInstance),
      applyEvent b (.acknowledge actor t) = some b' →
        b.state = .Active ∧ b'.state = .Acknowledged ∧
        b'.acknowledged_by = some actor ∧ b'.acknowledged_at = some t) ∧
    (∀ (b : AlertInstance) (actor : String) (t : ℤ) (b' : AlertInstance),
      applyEvent b (.resolve actor t) = some b' →
        (b.state = .Active ∨ b.state = .Acknowledged) ∧ b'.state = .Resolved ∧
        b'.resolved_by = some actor ∧ b'.resolved_at = some t) ∧
    (∀ (b b' : AlertInstance), applyEvent b .suppress = some b' →
      b.state = .Active ∧ b'.state = .Suppressed) ∧
    (∀ (b b' : AlertInstance), applyEvent b .unsuppress = some b' →
      b.state = .Suppressed ∧ b'.state = .Active) ∧
    (∀ b : AlertInstance, b.state = .Resolved →
      (∀ (actor : String) (t : ℤ), applyEvent b (.acknowledge actor t) = none) ∧
      (∀ (actor : String) (t : ℤ), applyEvent b (.resolve actor t) = none) ∧
      applyEvent b .suppress = none ∧
      applyEvent b .unsuppress = none ∧
      (∀ note : String, applyEvent b (.annotate note) =
        some { b with metadata := note :: b.metadata })) := by
  refine ⟨⟨rfl, rfl⟩, ?_, ?_, ?_, ?_, ?_, ?_⟩
  · exact runAlert_time_inv t0 es (alertTrigger t0) rfl (by simp [alertTrigger])
      (by simp [alertTrigger]) h
  · intro b actor t b' hb
    cases ha : b.state <;> simp [applyEvent, ha] at hb
    exact ⟨rfl, by rw [← hb], by rw [← hb], by rw [← hb]⟩
  · intro b actor t b' hb
    cases ha : b.state <;> simp [applyEvent, ha] at hb
    · exact ⟨Or.inl rfl, by rw [← hb], by rw [← hb], by rw [← hb]⟩
    · exact ⟨Or.inr rfl, by rw [← hb], by rw [← hb], by rw [← hb]⟩
  · intro b b' hb
    cases ha : b.state <;> simp [applyEvent, ha] at hb
    exact ⟨rfl, by rw [← hb]⟩
  · intro b b' hb
    cases ha : b.state <;> simp [applyEvent, ha] at hb
    exact ⟨rfl, by rw [← hb]⟩
  · intro b hb
    exact ⟨fun actor t => by simp [applyEvent, hb],
           fun actor t => by simp [applyEvent, hb],
           by simp [applyEvent, hb],
           by simp [applyEvent, hb],
           fun note => by simp [applyEvent]⟩

/-- C1 witness: trigger at time 0, acknowledge at 1, resolve at 2. -/
theorem alert_lifecycle_witness :
    (∀ e ∈ [AlertEvent.acknowledge "alice" 1, AlertEvent.resolve "alice" 2],
      ∀ te ∈ eventTime e, (0 : ℤ) ≤ te) ∧
    (runAlert (alertTrigger 0)
        [AlertEvent.acknowledge "alice" 1, AlertEvent.resolve "alice" 2]).triggered_at = 0 :=
  ⟨by decide,
   (alert_lifecycle 0 [AlertEvent.acknowledge "alice" 1, AlertEvent.resolve "alice" 2]
      (by decide)).2.1.1⟩

/-- Extending the satisfied-sample sequence by one sample. -/
theorem satisfiedSamples_succ (m : ℕ) :
    satisfiedSamples (m + 1) = satisfiedSamples m ++ [(true, (m : ℤ))] := by
  simp [satisfiedSamples, List.range_succ]

/-- Running the engine over one more sample is one more step. -/
theorem runRule_snoc (rule : AlertRule) (xs : List (Bool × ℤ)) (p : Bool × ℤ) :
    runRule rule (xs ++ [p]) = stepRule rule (runRule rule xs) p.1 p.2 := by
  simp [runRule, List.foldl_append]

/-- Invariant of an enabled rule under consecutive satisfied samples: the
streak counts the samples; below the minimum duration no instance exists
and none was created; from the minimum duration on, exactly one instance
exists, it is `Active`, it was triggered at sample index
`minDuration - 1`, and its `last_observed_at` tracks the latest sample. -/
theorem runRule_satisfied_inv (rule : AlertRule) (hen : rule.enabled = true)
    (hD : 1 ≤ rule.minDuration) (m : ℕ) :
    (runRule rule (satisfiedSamples m)).streak = m ∧
    (m < rule.minDuration →
      (runRule rule (satisfiedSamples m)).active = none ∧
      (runRule rule (satisfiedSamples m)).created = 0) ∧
    (rule.minDuration ≤ m →
      ∃ a, (runRule rule (satisfiedSamples m)).active = some a ∧
        a.state = .Active ∧ a.triggered_at = (rule.minDuration : ℤ) - 1 ∧
        a.last_observed_at = (m : ℤ) - 1 ∧
        (runRule rule (satisfiedSamples m)).created = 1) := by
  induction m with
  | zero =>
      exact ⟨rfl, fun _ => ⟨rfl, rfl⟩, fun h => absurd h (by omega)⟩
  | succ m ih =>
      obtain ⟨ihs, ihlt, ihge⟩ := ih
      rw [satisfiedSamples_succ, runRule_snoc]
      by_cases hcase : m + 1 < rule.minDuration
      · have hc : ¬ (rule.minDuration ≤ (runRule rule (satisfiedSamples m)).streak + 1) := by
          omega
        have hres : stepRule rule (runRule rule (satisfiedSamples m)) true (m : ℤ)
            = { runRule rule (satisfiedSamples m) with
                streak := (runRule rule (satisfiedSamples m)).streak + 1 } := by
          simp [stepRule, hen, hc]
        rw [hres]
        refine ⟨by simp [ihs], fun _ => ?_, fun h => absurd h (by omega)⟩
        obtain ⟨ha, hc0⟩ := ihlt (by omega)
        exact ⟨ha, hc0⟩
      · have hc : rule.minDuration ≤ (runRule rule (satisfiedSamples m)).streak + 1 := by
          omega
        by_cases hfirst : m + 1 = rule.minDuration
        · obtain ⟨ha, hc0⟩ := ihlt (by omega)
          have hres : stepRule rule (runRule rule (satisfiedSamples m)) true (m : ℤ)
              = { streak := (runRule rule (satisfiedSamples m)).streak + 1,
                  active := some (alertTrigger (m : ℤ)),
                  created := (runRule rule (satisfiedSamples m)).created + 1 } := by
            simp [stepRule, hen, hc, ha]
          rw [hres]
          refine ⟨by simp [ihs], fun h => absurd h (by omega), fun _ => ?_⟩
          refine ⟨alertTrigger (m : ℤ), rfl, rfl, ?_, ?_, by simp [hc0]⟩
          · show (m : ℤ) = (rule.minDuration : ℤ) - 1
            omega
          · show (m : ℤ) = ((m : ℕ) + 1 : ℤ) - 1
            omega
        · obtain ⟨a, hact, hstate, htrig, hobs, hcreated⟩ := ihge (by omega)
          have hres : stepRule rule (runRule rule (satisfiedSamples m)) true (m : ℤ)
              = { streak := (runRule rule (satisfiedSamples m)).streak + 1,
                  active := some { a with last_observed_at := (m : ℤ) },
                  created := (runRule rule (satisfiedSamples m)).created } := by
            simp [stepRule, hen, hc, hact]
          rw [hres]
          refine ⟨by simp [ihs], fun h => absurd h (by omega), fun _ => ?_⟩
          refine ⟨{ a with last_observed_at := (m : ℤ) }, rfl, hstate, htrig, ?_, hcreated⟩
          show (m : ℤ) = ((m : ℕ) + 1 : ℤ) - 1
          omega

/-- C4: for an enabled rule with minimum sustained duration `D`, a
condition satisfied for exactly `D - 1` samples creates no instance; for
exactly `D` samples exactly one `Active` instance is created; continued
satisfaction beyond `D` never creates a second instance; and whenever an
instance already exists — whatever its lifecycle state — a further
satisfied sample never creates another, only re-observes the existing
one. -/
theorem rule_debounce (rule : AlertRule) (m : ℕ)
    (hen : rule.enabled = true) (hD : 1 ≤ rule.minDuration) :
    ((runRule rule (satisfiedSamples (rule.minDuration - 1))).active = none ∧
      (runRule rule (satisfiedSamples (rule.minDuration - 1))).created = 0) ∧
    ((runRule rule (satisfiedSamples rule.minDuration)).created = 1 ∧
      ∃ a, (runRule rule (satisfiedSamples rule.minDuration)).active = some a ∧
        a.state = .Active) ∧
    (rule.minDuration ≤ m → (runRule rule (satisfiedSamples m)).created = 1) ∧
    (∀ (st : RuleEngineState) (a : AlertInstance) (t : ℤ), st.active = some a →
      (stepRule rule st true t).created = st.created ∧
      ∃ a', (stepRule rule st true t).active = some a' ∧ a'.state = a.state) := by
  refine ⟨?_, ?_, ?_, ?_⟩
  · exact (runRule_satisfied_inv rule hen hD (rule.minDuration - 1)).2.1 (by omega)
  · obtain ⟨a, hact, hstate, _, _, hcreated⟩ :=
      (runRule_satisfied_inv rule hen hD rule.minDuration).2.2 (le_refl _)
    exact ⟨hcreated, a, hact, hstate⟩
  · intro h
    obtain ⟨a, _, _, _, _, hcreated⟩ := (runRule_satisfied_inv rule hen hD m).2.2 h
    exact hcreated
  · intro st a t hact
    by_cases hc : rule.minDuration ≤ st.streak + 1
    · have hres : stepRule rule st true t
          = { streak := st.streak + 1,
              active := some { a with last_observed_at := t },
              created := st.created } := by
        simp [stepRule, hen, hc, hact]
      rw [hres]
      exact ⟨rfl, { a with last_observed_at := t }, rfl, rfl⟩
    · have hres : stepRule rule st true t = { st with streak := st.streak + 1 } := by
        simp [stepRule, hen, hc]
      rw [hres]
      exact ⟨rfl, a, hact, rfl⟩

/-- C4 witness: the concrete enabled two-sample rule run over five
satisfied samples creates exactly one instance. -/
theorem rule_debounce_witness :
    testRule.enabled = true ∧ 1 ≤ testRule.minDuration ∧
    testRule.minDuration ≤ 5 ∧
    (runRule testRule (satisfiedSamples 5)).created = 1 :=
  ⟨rfl, by decide, by decide,
   (rule_debounce testRule 5 rfl (by decide)).2.2.1 (by decide)⟩
